import Mathlib

/-!
Verification of the squail `#[derive(Table)]` macro (src/macros/src/lib.rs):
schema analysis, SQL statement synthesis, trait-bound collection, and the
run-time behaviour of the generated CRUD operations, modelled against a
simple state model of the external storage engine.
-/

namespace Squail

/-- Shape of a Rust field type as the macro inspects it: a path type is
reduced to the identifier of its first segment plus the token text of that
segment arguments (`segment.arguments.to_token_stream().to_string()`);
every non-path type is collapsed into `other`. -/
inductive RustType where
  | path (firstSeg : String) (argTokens : String)
  | other
deriving DecidableEq, Repr

/-- Token rendering of a field type, as `quote!(#field_type)` would emit it. -/
def RustType.tokens : RustType → String
  | .path seg args => if args = "" then seg else seg ++ " " ++ args
  | .other => "non-path"

/-- One named field of the struct the macro is derived on. -/
structure Field where
  name : String
  ty : RustType
deriving DecidableEq, Repr

/-- Whitespace trimming of `str::trim`: drop leading and trailing
whitespace characters. -/
def trimWs (s : String) : String :=
  String.mk (((s.data.dropWhile Char.isWhitespace).reverse.dropWhile Char.isWhitespace).reverse)

/-- The check on the `id` field performed at lib.rs:49-58: the type must be
a path whose first segment identifier is `Option` and whose argument token
text trims to `< i64 >`. -/
def idTypeOk : RustType → Bool
  | .path seg args => seg = "Option" && trimWs args = "< i64 >"
  | .other => false

/-- The `field_names` list of the macro: every field name, declaration order. -/
def fieldNames (fields : List Field) : List String :=
  fields.map Field.name

/-- The `column_names` list of the macro: names of every field except `id`,
declaration order preserved (lib.rs:59-61). -/
def columnNames (fields : List Field) : List String :=
  (fields.filter (fun f => f.name != "id")).map Field.name

/-- The per-field loop of `derive_table` (lib.rs:37-62): walks the fields in
order, aborts with the panic message at the first `id` field whose type is
not `Option<i64>`, and collects `column_names` otherwise. -/
def analyzeLoop : List Field → Except String (List String)
  | [] => Except.ok []
  | f :: rest =>
      if f.name = "id" then
        if idTypeOk f.ty then analyzeLoop rest
        else Except.error "The `id` field must be of type `Option<i64>`"
      else
        match analyzeLoop rest with
        | Except.ok cols => Except.ok (f.name :: cols)
        | Except.error e => Except.error e

/-- The validated schema the macro produces: table name (the struct name,
verbatim) and the non-key column names in declaration order. -/
structure Schema where
  tableName : String
  columns : List String
deriving DecidableEq, Repr

/-- Schema analysis of `derive_table` (lib.rs:12-69): run the field loop
(which panics on a mistyped `id`), then require some field named `id`
(lib.rs:67-69). -/
def derive_table (structName : String) (fields : List Field) : Except String Schema :=
  match analyzeLoop fields with
  | Except.error e => Except.error e
  | Except.ok cols =>
      if fields.any (fun f => f.name == "id")
      then Except.ok { tableName := structName, columns := cols }
      else Except.error "Structs annotated with `Table` require a primary key field `id: Option<i64>`."

/-- Placeholder list `?1, ?2, ..., ?n` built by
`(1..=field_names.len()).map(|i| format!(..))` (lib.rs:135). -/
def placeholderList (n : Nat) : List String :=
  (List.range n).map (fun i => "?" ++ toString (i + 1))

/-- Placeholder list `?, ?, ..., ?` built by `vec!["?"; field_names.len()]`
(lib.rs:94). -/
def questionMarks (n : Nat) : List String :=
  List.replicate n "?"

/-- The create-table statement text (lib.rs:72-76). -/
def create_table_sql (tableName : String) (fields : List Field) : String :=
  "CREATE TABLE IF NOT EXISTS " ++ tableName ++ " (id INTEGER PRIMARY KEY AUTOINCREMENT, "
    ++ String.intercalate ", " (columnNames fields) ++ ");"

/-- The insert statement text (lib.rs:90-95): columns `(id, c1, ..., cn)`,
one `?` placeholder per field of the struct. -/
def insert_sql (tableName : String) (fields : List Field) : String :=
  "INSERT INTO " ++ tableName ++ " (id, " ++ String.intercalate ", " (columnNames fields)
    ++ ") VALUES (" ++ String.intercalate ", " (questionMarks (fieldNames fields).length) ++ ");"

/-- The update statement text (lib.rs:131-136): the SET list names every
field (`field_names`, the key included), the placeholders run `?1..?m` over
all fields, and the WHERE clause reuses `?1`. -/
def update_sql (tableName : String) (fields : List Field) : String :=
  "UPDATE OR IGNORE " ++ tableName ++ " SET ("
    ++ String.intercalate ", " (fieldNames fields) ++ ") = ("
    ++ String.intercalate ", " (placeholderList (fieldNames fields).length)
    ++ ") WHERE id = ?1"

/-- The update statement as the specification describes it (spec section 4.3):
SET list over the non-key columns only, placeholders `?1..?n` for those
columns, and the key bound last as `?{n+1}`. Written from the spec words,
for comparison with `update_sql`. -/
def update_sql_claimed (tableName : String) (fields : List Field) : String :=
  "UPDATE OR IGNORE " ++ tableName ++ " SET ("
    ++ String.intercalate ", " (columnNames fields) ++ ") = ("
    ++ String.intercalate ", " (placeholderList (columnNames fields).length)
    ++ ") WHERE id = ?" ++ toString ((columnNames fields).length + 1) ++ ";"

/-- The update statement shape stated over all declared fields: SET list is
every field name in declaration order, placeholders `?1..?m` with `m` the
number of fields, and the key matched through `?1`, the slot of the first
declared field. Written from the amended claim words, for comparison with
`update_sql`. -/
def update_sql_amended (tableName : String) (fields : List Field) : String :=
  "UPDATE OR IGNORE " ++ tableName ++ " SET ("
    ++ String.intercalate ", " (fields.map Field.name) ++ ") = ("
    ++ String.intercalate ", " ((List.range fields.length).map (fun i => "?" ++ toString (i + 1)))
    ++ ") WHERE id = ?1"

/-- Column list named by the insert statement: `id` first, then the non-key
columns (lib.rs:91-93). -/
def insertColumnList (fields : List Field) : List String :=
  "id" :: columnNames fields

/-- The parameters bound by both the generated insert and the generated
update: `field_accessors`, one `self.f` per field in declaration order
(lib.rs:43, lib.rs:103, lib.rs:151), identified here by field name. -/
def boundParamFields (fields : List Field) : List String :=
  fields.map Field.name

/-- The field whose value the engine compares against `id` in the generated
update statement: the WHERE clause uses placeholder `?1`, which is the first
bound parameter, hence the first declared field. -/
def updateWhereField (fields : List Field) : Option String :=
  (boundParamFields fields).head?

/-- Key under which a trait bound is stored in the de-duplication map. In
the source this is `stringify!(#field_type)` evaluated outside of `quote!`
(lib.rs:45-46), which stringifies the literal tokens `#` and `field_type`
rather than the field type, so it is the same string for every field. -/
def traitBoundKey (_ty : RustType) : String :=
  "# field_type"

/-- Insert into an association list with replace-on-equal-key, modelling
`HashMap::insert`. -/
def boundsMapInsert (m : List (String × String)) (k v : String) : List (String × String) :=
  match m with
  | [] => [(k, v)]
  | (k2, v2) :: rest =>
      if k2 = k then (k2, v) :: rest
      else (k2, v2) :: boundsMapInsert rest k v

/-- The `to_sql_trait_bounds` collection of the macro (lib.rs:34, 45, 64):
for each field, insert the bound `T: rusqlite::types::ToSql` under the key
`traitBoundKey`, then take the values of the map. -/
def to_sql_trait_bounds (fields : List Field) : List String :=
  (fields.foldl
    (fun m f => boundsMapInsert m (traitBoundKey f.ty) (f.ty.tokens ++ ": rusqlite::types::ToSql"))
    []).map Prod.snd

/-- The fields of the `Person` struct used by the repository test suite. -/
def personFields : List Field :=
  [⟨"id", RustType.path "Option" "< i64 >"⟩,
   ⟨"name", RustType.path "String" ""⟩,
   ⟨"age", RustType.path "i64" ""⟩,
   ⟨"position", RustType.path "Point" ""⟩]

/-! Run-time model. The storage engine is the external collaborator of the
spec (section 1): it executes the synthesized statement text against a
connection, returns affected-row counts and result rows, and assigns
surrogate key values on insert. We model the single table of a record type
as an association list from the integer key to the non-key column values,
together with the `last_insert_rowid` register and the AUTOINCREMENT
sequence. Engine calls can fail: the `faults` list is a schedule of
injected storage failures, one entry consumed per executed statement. The
generated operations are translated for the intended field layout, `id`
declared first (the only layout in which the synthesized statements bind
every value to the column naming it, see the alignment theorem). -/

/-- Scalar column value stored in the table. -/
abbrev Val := Int

/-- Errors of the run-time model, mirroring the `rusqlite::Error` values the
generated code produces plus an opaque storage-engine failure class. -/
inductive SqlError where
  | invalidQuery
  | queryReturnedNoRows
  | constraintViolation
  | storage (code : Nat)
deriving DecidableEq, Repr

instance {ε α : Type} [DecidableEq ε] [DecidableEq α] : DecidableEq (Except ε α) := fun x y =>
  match x, y with
  | Except.ok a, Except.ok b =>
      if h : a = b then isTrue (by rw [h]) else isFalse (by intro hc; cases hc; exact h rfl)
  | Except.ok _, Except.error _ => isFalse (by intro hc; cases hc)
  | Except.error _, Except.ok _ => isFalse (by intro hc; cases hc)
  | Except.error e, Except.error f =>
      if h : e = f then isTrue (by rw [h]) else isFalse (by intro hc; cases hc; exact h rfl)

/-- Connection state: table rows (key and non-key column values), the
`last_insert_rowid` register, the AUTOINCREMENT sequence, and the schedule
of injected storage faults. -/
structure Conn where
  rows : List (Int × List Val)
  lastInsertRowid : Int
  seq : Int
  faults : List Bool
deriving DecidableEq, Repr

/-- A record instance: the `id: Option<i64>` key field plus the remaining
field values in declaration order. -/
structure Record where
  id : Option Int
  cols : List Val
deriving DecidableEq, Repr

/-- Consume the next entry of the fault schedule; an empty schedule means
no failure. -/
def popFault (c : Conn) : Bool × Conn :=
  match c.faults with
  | [] => (false, c)
  | f :: rest => (f, { c with faults := rest })

/-- Row lookup by key. -/
def findRow (rows : List (Int × List Val)) (k : Int) : Option (List Val) :=
  match rows with
  | [] => none
  | (k2, cols) :: rest => if k2 = k then some cols else findRow rest k

/-- Number of rows whose key is `k` (the affected-row count of a keyed
update or delete). -/
def matchCount (rows : List (Int × List Val)) (k : Int) : Nat :=
  match rows with
  | [] => 0
  | (k2, _) :: rest => (if k2 = k then 1 else 0) + matchCount rest k

/-- Replace the column values of every row with key `k`. -/
def setRow (rows : List (Int × List Val)) (k : Int) (cols : List Val) : List (Int × List Val) :=
  match rows with
  | [] => []
  | (k2, old) :: rest =>
      if k2 = k then (k, cols) :: setRow rest k cols
      else (k2, old) :: setRow rest k cols

/-- Remove every row with key `k`. -/
def removeRow (rows : List (Int × List Val)) (k : Int) : List (Int × List Val) :=
  match rows with
  | [] => []
  | (k2, cols) :: rest =>
      if k2 = k then removeRow rest k
      else (k2, cols) :: removeRow rest k

/-- Engine executing the insert statement: a null key makes the engine
assign a fresh identity value (AUTOINCREMENT), an explicit key inserts the
row under that key (or fails the primary-key constraint if it is taken);
either way `last_insert_rowid` is set to the rowid just written. -/
def execInsert (c : Conn) (key : Option Int) (cols : List Val) : Except SqlError Unit × Conn :=
  let (f, c) := popFault c
  if f then (Except.error (SqlError.storage 1), c)
  else
    match key with
    | some k =>
        if (findRow c.rows k).isSome then (Except.error SqlError.constraintViolation, c)
        else (Except.ok (),
          { c with rows := c.rows ++ [(k, cols)], lastInsertRowid := k, seq := max c.seq k })
    | none =>
        let k := c.seq + 1
        (Except.ok (),
          { c with rows := c.rows ++ [(k, cols)], lastInsertRowid := k, seq := k })

/-- Engine executing the update statement `UPDATE OR IGNORE .. WHERE id = ?`:
returns the affected-row count; a null key matches no row. -/
def execUpdate (c : Conn) (key : Option Int) (cols : List Val) : Except SqlError Nat × Conn :=
  let (f, c) := popFault c
  if f then (Except.error (SqlError.storage 1), c)
  else
    match key with
    | none => (Except.ok 0, c)
    | some k => (Except.ok (matchCount c.rows k), { c with rows := setRow c.rows k cols })

/-- Engine executing `DELETE FROM .. WHERE id = ?`: returns the affected-row
count; a null key matches no row. -/
def execDelete (c : Conn) (key : Option Int) : Except SqlError Nat × Conn :=
  let (f, c) := popFault c
  if f then (Except.error (SqlError.storage 1), c)
  else
    match key with
    | none => (Except.ok 0, c)
    | some k => (Except.ok (matchCount c.rows k), { c with rows := removeRow c.rows k })

/-- Engine executing `SELECT * FROM .. WHERE id = ?`: returns the row if one
exists. -/
def execSelect (c : Conn) (k : Int) : Except SqlError (Option (List Val)) × Conn :=
  let (f, c) := popFault c
  if f then (Except.error (SqlError.storage 1), c)
  else (Except.ok (findRow c.rows k), c)

/-- Generated `insert` (lib.rs:97-109): executes the insert statement with
the key as given plus the column values, reads back `last_insert_rowid`,
stores it into `self.id` and returns it. -/
def Record.insert (r : Record) (c : Conn) : Except SqlError Int × Record × Conn :=
  match execInsert c r.id r.cols with
  | (Except.error e, c) => (Except.error e, r, c)
  | (Except.ok _, c) =>
      let id := c.lastInsertRowid
      (Except.ok id, { r with id := some id }, c)

/-- Generated `update` (lib.rs:138-157): fails with `InvalidQuery` before
executing anything when the key is absent; otherwise executes the update
statement and maps an affected-row count of zero to `QueryReturnedNoRows`. -/
def Record.update (r : Record) (c : Conn) : Except SqlError Unit × Conn :=
  match r.id with
  | none => (Except.error SqlError.invalidQuery, c)
  | some _ =>
      match execUpdate c r.id r.cols with
      | (Except.error e, c) => (Except.error e, c)
      | (Except.ok n, c) =>
          if n = 0 then (Except.error SqlError.queryReturnedNoRows, c)
          else (Except.ok (), c)

/-- Generated `update_or_insert` (lib.rs:112-128): insert when the key is
absent; otherwise try `update` and on `Ok` return the present key, while on
any `Err` whatsoever fall back to `insert`. -/
def Record.update_or_insert (r : Record) (c : Conn) : Except SqlError Int × Record × Conn :=
  match r.id with
  | none => r.insert c
  | some id =>
      match r.update c with
      | (Except.ok _, c) => (Except.ok id, r, c)
      | (Except.error _, c) => r.insert c

/-- Generated `from_sql_row` (lib.rs:185-194): rebuild a record from a
retrieved row, every field looked up by name, the `id` column included. -/
def from_sql_row (k : Int) (cols : List Val) : Record :=
  { id := some k, cols := cols }

/-- Generated `get_by_id` (lib.rs:197-213): run the select-by-key statement;
decode the row if one came back, report `QueryReturnedNoRows` otherwise. -/
def get_by_id (c : Conn) (k : Int) : Except SqlError Record × Conn :=
  match execSelect c k with
  | (Except.error e, c) => (Except.error e, c)
  | (Except.ok (some cols), c) => (Except.ok (from_sql_row k cols), c)
  | (Except.ok none, c) => (Except.error SqlError.queryReturnedNoRows, c)

/-- Generated `sync` (lib.rs:160-182): `Ok false` without touching anything
when the key is absent; otherwise re-read by key, overwrite the whole record
on success, report `Ok false` on `QueryReturnedNoRows`, and pass any other
error through. -/
def Record.sync (r : Record) (c : Conn) : Except SqlError Bool × Record × Conn :=
  match r.id with
  | none => (Except.ok false, r, c)
  | some k =>
      match get_by_id c k with
      | (Except.error SqlError.queryReturnedNoRows, c) => (Except.ok false, r, c)
      | (Except.ok rec, c) => (Except.ok true, rec, c)
      | (Except.error e, c) => (Except.error e, r, c)

/-- Generated `delete` (lib.rs:216-232): `Ok false` when the key is absent;
otherwise execute delete-by-key with the current key, clear `self.id` and
report whether a row was removed. -/
def Record.delete (r : Record) (c : Conn) : Except SqlError Bool × Record × Conn :=
  match r.id with
  | none => (Except.ok false, r, c)
  | some _ =>
      match execDelete c r.id with
      | (Except.error e, c) => (Except.error e, r, c)
      | (Except.ok n, c) => (Except.ok (n != 0), { r with id := none }, c)

/-! Supporting lemmas on the table model. -/

theorem findRow_none_iff_matchCount (rows : List (Int × List Val)) (k : Int) :
    findRow rows k = none ↔ matchCount rows k = 0 := by
  induction rows with
  | nil => simp [findRow, matchCount]
  | cons p rest ih =>
      obtain ⟨k2, cols⟩ := p
      by_cases h : k2 = k
      · simp [findRow, matchCount, h]
      · simp [findRow, matchCount, h, ih]

theorem setRow_of_findRow_none (rows : List (Int × List Val)) (k : Int) (v : List Val)
    (h : findRow rows k = none) : setRow rows k v = rows := by
  induction rows with
  | nil => simp [setRow]
  | cons p rest ih =>
      obtain ⟨k2, cols⟩ := p
      by_cases hk : k2 = k
      · simp [findRow, hk] at h
      · simp [findRow, hk] at h
        simp [setRow, hk, ih h]

theorem matchCount_bne_eq_isSome (rows : List (Int × List Val)) (k : Int) :
    (matchCount rows k != 0) = (findRow rows k).isSome := by
  induction rows with
  | nil => simp [findRow, matchCount]
  | cons p rest ih =>
      obtain ⟨k2, cols⟩ := p
      by_cases h : k2 = k
      · simp [findRow, matchCount, h]
      · simp [findRow, matchCount, h, ih]

theorem matchCount_ne_zero_of_findRow_some (rows : List (Int × List Val)) (k : Int)
    (cols : List Val) (h : findRow rows k = some cols) : matchCount rows k ≠ 0 := by
  intro h0
  rw [← findRow_none_iff_matchCount] at h0
  rw [h0] at h
  exact Option.noConfusion h

/-! Claim theorems. -/

/-- C1 (counterexample): on the validated `Person` schema the synthesized
update statement puts every field, the key included, into the SET list and
matches the key through `?1`, while the claimed shape lists only the
non-key columns and binds the key last as `?4`; the two statements are
different strings. -/
theorem C1_counterexample_update_shape :
    derive_table "Person" personFields =
      Except.ok { tableName := "Person", columns := ["name", "age", "position"] } ∧
    update_sql "Person" personFields ≠ update_sql_claimed "Person" personFields ∧
    update_sql "Person" personFields =
      "UPDATE OR IGNORE Person SET (id, name, age, position) = (?1, ?2, ?3, ?4) WHERE id = ?1" ∧
    update_sql_claimed "Person" personFields =
      "UPDATE OR IGNORE Person SET (name, age, position) = (?1, ?2, ?3) WHERE id = ?4;" := by
  refine ⟨by decide, by decide, by decide, by decide⟩

/-- C1 (amended): the synthesized update statement has the exact shape
`UPDATE OR IGNORE T SET (f1, ..., fm) = (?1, ..., ?m) WHERE id = ?1` where
`f1..fm` are ALL declared fields (the key included) in declaration order:
the parameters are bound to the fields positionally in declaration order
and the key match condition reuses `?1`, the slot of the first declared
field. -/
theorem C1_update_sql_all_fields (tableName : String) (fields : List Field) :
    update_sql tableName fields = update_sql_amended tableName fields ∧
    boundParamFields fields = fieldNames fields ∧
    updateWhereField fields = (fieldNames fields).head? := by
  refine ⟨?_, rfl, rfl⟩
  simp [update_sql, update_sql_amended, fieldNames, placeholderList]

/-- C2 (counterexample): a record carrying the stale key 5 over an empty
table: `update_or_insert` does fall back to inserting a row, but the key it
assigns is 5 again, the stale key itself, not a fresh identity distinct
from it. -/
theorem C2_counterexample_stale_key_reused :
    Record.update_or_insert ⟨some 5, [7]⟩ ⟨[], 0, 0, []⟩ =
      (Except.ok 5, ⟨some 5, [7]⟩, ⟨[(5, [7])], 5, 5, []⟩) := by decide

/-- C2 (amended): when the key is present but matches no stored row,
`update_or_insert` falls back to inserting a new row, and the key it
assigns to the record is the stale key itself: the insert statement binds
the present key, so the engine re-creates the row under the old key rather
than assigning a fresh identity. -/
theorem C2_upsert_fallback_reuses_stale_key (r : Record) (c : Conn) (k : Int)
    (hk : r.id = some k) (hf : c.faults = []) (hrow : findRow c.rows k = none) :
    Record.update_or_insert r c =
      (Except.ok k, { r with id := some k },
        { c with rows := c.rows ++ [(k, r.cols)], lastInsertRowid := k, seq := max c.seq k }) := by
  obtain ⟨rows, lir, sq, fs⟩ := c
  dsimp only at hf hrow ⊢
  subst hf
  have h0 : matchCount rows k = 0 := (findRow_none_iff_matchCount _ _).mp hrow
  have hset : setRow rows k r.cols = rows := setRow_of_findRow_none _ _ _ hrow
  have hexec : execUpdate ⟨rows, lir, sq, []⟩ (some k) r.cols =
      (Except.ok 0, ⟨rows, lir, sq, []⟩) := by
    simp [execUpdate, popFault, h0, hset]
  have hupd : r.update ⟨rows, lir, sq, []⟩ =
      (Except.error SqlError.queryReturnedNoRows, ⟨rows, lir, sq, []⟩) := by
    simp [Record.update, hk, hexec]
  have hins : Record.insert r ⟨rows, lir, sq, []⟩ =
      (Except.ok k, { r with id := some k }, ⟨rows ++ [(k, r.cols)], k, max sq k, []⟩) := by
    simp [Record.insert, execInsert, popFault, hk, hrow]
  simp [Record.update_or_insert, hk, hupd, hins]

/-- C2 (witness for the amended theorem). -/
theorem C2_upsert_fallback_witness :
    Record.update_or_insert ⟨some 9, [3, 4]⟩ ⟨[(1, [0, 0])], 1, 1, []⟩ =
      (Except.ok 9, ⟨some 9, [3, 4]⟩, ⟨[(1, [0, 0]), (9, [3, 4])], 9, 9, []⟩) := by
  have h := C2_upsert_fallback_reuses_stale_key ⟨some 9, [3, 4]⟩ ⟨[(1, [0, 0])], 1, 1, []⟩ 9
    rfl rfl (by decide)
  simpa using h

/-- C3 (code bug, evaluated at the failing input): on the `Person` struct of
the repository test suite, which has four distinct field types, the macro
emits a single `ToSql` requirement, the one of the last declared field
(`Point`), because the de-duplication key `stringify!(#field_type)` is
evaluated outside `quote!` and is therefore the same literal string for
every field. -/
theorem C3_single_bound_bug :
    to_sql_trait_bounds personFields = ["Point: rusqlite::types::ToSql"] ∧
    (personFields.map Field.ty).dedup.length = 4 := by decide

/-- C4 (counterexample): over an empty table with a storage fault injected
into the first statement, `update` on a record with key 5 reports the
storage error, yet `update_or_insert` on the same record and connection
does not propagate that error: it falls back to `insert`, creates the row
and answers `Ok 5`. -/
theorem C4_counterexample_storage_error_fallback :
    (Record.update ⟨some 5, [7]⟩ ⟨[], 0, 0, [true]⟩).1 = Except.error (SqlError.storage 1) ∧
    Record.update_or_insert ⟨some 5, [7]⟩ ⟨[], 0, 0, [true]⟩ =
      (Except.ok 5, ⟨some 5, [7]⟩, ⟨[(5, [7])], 5, 5, []⟩) := by decide

/-- C4 (amended): with the key present, `update_or_insert` returns the
present key untouched when `update` succeeds, and falls back to `insert`
whenever `update` returns ANY error: the no-row outcome and every
storage-engine failure alike are converted into an insert attempt rather
than propagated. -/
theorem C4_upsert_fallback_on_any_error (r : Record) (c : Conn) (k : Int)
    (hk : r.id = some k) :
    (∀ u c2, r.update c = (Except.ok u, c2) →
        Record.update_or_insert r c = (Except.ok k, r, c2)) ∧
    (∀ e c2, r.update c = (Except.error e, c2) →
        Record.update_or_insert r c = Record.insert r c2) := by
  constructor
  · intro u c2 h
    simp [Record.update_or_insert, hk, h]
  · intro e c2 h
    simp [Record.update_or_insert, hk, h]

/-- C4 (witness for the amended theorem). -/
theorem C4_upsert_fallback_on_any_error_witness :
    Record.update_or_insert ⟨some 5, [7]⟩ ⟨[], 0, 0, [true]⟩ =
      Record.insert ⟨some 5, [7]⟩ ⟨[], 0, 0, []⟩ :=
  (C4_upsert_fallback_on_any_error ⟨some 5, [7]⟩ ⟨[], 0, 0, [true]⟩ 5 rfl).2
    (SqlError.storage 1) ⟨[], 0, 0, []⟩ (by decide)

/-- C5: `update` with the key absent fails with the missing-key error
`InvalidQuery` and executes no statement, the connection state being
returned untouched; with the key present it executes the update statement
and reports `QueryReturnedNoRows` when no row carries that key, success
when one does. -/
theorem C5_update_outcomes (r : Record) (c : Conn) :
    (r.id = none → r.update c = (Except.error SqlError.invalidQuery, c)) ∧
    (∀ k, r.id = some k → c.faults = [] →
      (findRow c.rows k = none →
        (r.update c).1 = Except.error SqlError.queryReturnedNoRows) ∧
      (∀ cols, findRow c.rows k = some cols → (r.update c).1 = Except.ok ())) := by
  constructor
  · intro h
    simp [Record.update, h]
  · intro k hk hf
    obtain ⟨rows, lir, sq, fs⟩ := c
    dsimp only at hf ⊢
    subst hf
    constructor
    · intro hrow
      have h0 : matchCount rows k = 0 := (findRow_none_iff_matchCount _ _).mp hrow
      simp [Record.update, hk, execUpdate, popFault, h0]
    · intro cols hrow
      have h0 : matchCount rows k ≠ 0 := matchCount_ne_zero_of_findRow_some _ _ _ hrow
      simp [Record.update, hk, execUpdate, popFault, h0]

/-- C5 (witness). -/
theorem C5_update_outcomes_witness :
    (Record.update ⟨some 1, [25]⟩ ⟨[(1, [24])], 1, 1, []⟩).1 = Except.ok () :=
  ((C5_update_outcomes ⟨some 1, [25]⟩ ⟨[(1, [24])], 1, 1, []⟩).2 1 rfl rfl).2 [24] (by decide)

/-- C6: `sync` reports `Ok false` and leaves the record untouched both when
the key is absent and when no row carries the key; when the row exists it
overwrites every field of the record, the key included, from the
freshly-read row; any other storage error propagates unchanged, the record
still untouched. -/
theorem C6_sync_outcomes (r : Record) (c : Conn) :
    (r.id = none → r.sync c = (Except.ok false, r, c)) ∧
    (∀ k, r.id = some k → c.faults = [] →
      (findRow c.rows k = none → r.sync c = (Except.ok false, r, c)) ∧
      (∀ cols, findRow c.rows k = some cols →
        r.sync c = (Except.ok true, ⟨some k, cols⟩, c))) ∧
    (∀ k rest, r.id = some k → c.faults = true :: rest →
      r.sync c = (Except.error (SqlError.storage 1), r, { c with faults := rest })) := by
  refine ⟨?_, ?_, ?_⟩
  · intro h
    simp [Record.sync, h]
  · intro k hk hf
    obtain ⟨rows, lir, sq, fs⟩ := c
    dsimp only at hf ⊢
    subst hf
    constructor
    · intro hrow
      simp [Record.sync, hk, get_by_id, execSelect, popFault, hrow]
    · intro cols hrow
      simp [Record.sync, hk, get_by_id, execSelect, popFault, hrow, from_sql_row]
  · intro k rest hk hf
    obtain ⟨rows, lir, sq, fs⟩ := c
    dsimp only at hf ⊢
    subst hf
    simp [Record.sync, hk, get_by_id, execSelect, popFault]

/-- C6 (witness). -/
theorem C6_sync_outcomes_witness :
    Record.sync ⟨some 1, [24]⟩ ⟨[(1, [27])], 1, 1, []⟩ =
      (Except.ok true, ⟨some 1, [27]⟩, ⟨[(1, [27])], 1, 1, []⟩) :=
  (((C6_sync_outcomes ⟨some 1, [24]⟩ ⟨[(1, [27])], 1, 1, []⟩).2.1 1 rfl rfl).2) [27] (by decide)

/-- C7: `get_by_id` decodes and returns the row when one is returned, and
when no row is returned it fails with `QueryReturnedNoRows`, an error value
distinct from every storage-failure value, so a caller can tell a missing
row apart from a failed query. -/
theorem C7_get_by_id_outcomes (c : Conn) (k : Int) :
    (c.faults = [] →
      (∀ cols, findRow c.rows k = some cols →
        get_by_id c k = (Except.ok ⟨some k, cols⟩, c)) ∧
      (findRow c.rows k = none →
        get_by_id c k = (Except.error SqlError.queryReturnedNoRows, c))) ∧
    (∀ rest, c.faults = true :: rest →
      get_by_id c k = (Except.error (SqlError.storage 1), { c with faults := rest })) ∧
    (∀ n, SqlError.queryReturnedNoRows ≠ SqlError.storage n) := by
  refine ⟨?_, ?_, ?_⟩
  · intro hf
    obtain ⟨rows, lir, sq, fs⟩ := c
    dsimp only at hf ⊢
    subst hf
    constructor
    · intro cols hrow
      simp [get_by_id, execSelect, popFault, hrow, from_sql_row]
    · intro hrow
      simp [get_by_id, execSelect, popFault, hrow]
  · intro rest hf
    obtain ⟨rows, lir, sq, fs⟩ := c
    dsimp only at hf ⊢
    subst hf
    simp [get_by_id, execSelect, popFault]
  · intro n h
    exact SqlError.noConfusion h

/-- C7 (witness). -/
theorem C7_get_by_id_outcomes_witness :
    get_by_id ⟨[(1, [24])], 1, 1, []⟩ 2 =
      (Except.error SqlError.queryReturnedNoRows, ⟨[(1, [24])], 1, 1, []⟩) :=
  ((C7_get_by_id_outcomes ⟨[(1, [24])], 1, 1, []⟩ 2).1 rfl).2 (by decide)

/-- C8: `delete` is a no-op reporting `Ok false` when the key is absent;
with the key present and the statement executing, it deletes by the current
key, clears the key of the record to `none`, and reports whether a row with
that key actually existed; on a storage failure the error propagates and
the key is left in place. -/
theorem C8_delete_outcomes (r : Record) (c : Conn) :
    (r.id = none → r.delete c = (Except.ok false, r, c)) ∧
    (∀ k, r.id = some k → c.faults = [] →
      r.delete c = (Except.ok (findRow c.rows k).isSome, { r with id := none },
        { c with rows := removeRow c.rows k })) ∧
    (∀ k rest, r.id = some k → c.faults = true :: rest →
      r.delete c = (Except.error (SqlError.storage 1), r, { c with faults := rest })) := by
  refine ⟨?_, ?_, ?_⟩
  · intro h
    simp [Record.delete, h]
  · intro k hk hf
    obtain ⟨rows, lir, sq, fs⟩ := c
    dsimp only at hf ⊢
    subst hf
    simp [Record.delete, hk, execDelete, popFault, matchCount_bne_eq_isSome]
  · intro k rest hk hf
    obtain ⟨rows, lir, sq, fs⟩ := c
    dsimp only at hf ⊢
    subst hf
    simp [Record.delete, hk, execDelete, popFault]

/-- C8 (witness). -/
theorem C8_delete_outcomes_witness :
    Record.delete ⟨some 1, [24]⟩ ⟨[(1, [24])], 1, 1, []⟩ =
      (Except.ok true, ⟨none, [24]⟩, ⟨[], 1, 1, []⟩) := by
  have h := (C8_delete_outcomes ⟨some 1, [24]⟩ ⟨[(1, [24])], 1, 1, []⟩).2.1 1 rfl rfl
  simpa using h

/-! Supporting lemmas on the schema analysis. -/

theorem analyzeLoop_ok_of_good (fields : List Field)
    (h : ∀ f ∈ fields, f.name = "id" → idTypeOk f.ty = true) :
    analyzeLoop fields = Except.ok (columnNames fields) := by
  induction fields with
  | nil => simp [analyzeLoop, columnNames]
  | cons f rest ih =>
      have hr : analyzeLoop rest = Except.ok (columnNames rest) :=
        ih (fun g hg => h g (List.mem_cons_of_mem _ hg))
      by_cases hname : f.name = "id"
      · have hty : idTypeOk f.ty = true := h f (List.mem_cons_self _ _) hname
        simp [analyzeLoop, hname, hty, hr, columnNames]
      · simp [analyzeLoop, hname, hr, columnNames]

theorem analyzeLoop_not_ok_of_bad (fields : List Field) (f : Field) (hf : f ∈ fields)
    (hid : f.name = "id") (hty : ¬ idTypeOk f.ty = true) :
    ∀ cols, analyzeLoop fields ≠ Except.ok cols := by
  induction fields with
  | nil => cases hf
  | cons g rest ih =>
      intro cols hc
      rcases List.mem_cons.mp hf with hfg | hfr
      · rw [← hfg] at hc
        simp [analyzeLoop, hid, hty] at hc
      · by_cases hname : g.name = "id"
        · by_cases hgty : idTypeOk g.ty = true
          · rw [show analyzeLoop (g :: rest) = analyzeLoop rest from by
              simp [analyzeLoop, hname, hgty]] at hc
            exact ih hfr cols hc
          · simp [analyzeLoop, hname, hgty] at hc
        · cases h2 : analyzeLoop rest with
          | ok cols2 =>
              exact ih hfr cols2 h2
          | error e =>
              rw [show analyzeLoop (g :: rest) = Except.error e from by
                simp [analyzeLoop, hname, h2]] at hc
              exact Except.noConfusion hc

theorem analyzeLoop_cases (fields : List Field) :
    (∃ cols, analyzeLoop fields = Except.ok cols) ∨
      analyzeLoop fields = Except.error "The `id` field must be of type `Option<i64>`" := by
  induction fields with
  | nil => exact Or.inl ⟨[], rfl⟩
  | cons f rest ih =>
      by_cases hname : f.name = "id"
      · by_cases hty : idTypeOk f.ty = true
        · rcases ih with ⟨cols, hc⟩ | he
          · exact Or.inl ⟨cols, by simp [analyzeLoop, hname, hty, hc]⟩
          · exact Or.inr (by simp [analyzeLoop, hname, hty, he])
        · exact Or.inr (by simp [analyzeLoop, hname, hty])
      · rcases ih with ⟨cols, hc⟩ | he
        · exact Or.inl ⟨f.name :: cols, by simp [analyzeLoop, hname, hc]⟩
        · exact Or.inr (by simp [analyzeLoop, hname, he])

theorem any_id_iff_mem (fields : List Field) :
    fields.any (fun f => f.name == "id") = true ↔ "id" ∈ fields.map Field.name := by
  rw [List.any_eq_true]
  constructor
  · rintro ⟨f, hf, hv⟩
    exact List.mem_map.mpr ⟨f, hf, by simpa using hv⟩
  · intro h
    rcases List.mem_map.mp h with ⟨f, hf, hv⟩
    exact ⟨f, hf, by simp [hv]⟩

/-- C9: under the well-formedness guarantee of the host language that field
names are pairwise distinct, schema validation succeeds exactly when one
field is named `id` and that field passes the `Option<i64>` shape check;
when the `id` field is missing or mistyped, generation aborts with the
corresponding fatal diagnostic. -/
theorem C9_schema_validation (s : String) (fields : List Field)
    (hnd : (fields.map Field.name).Nodup) :
    ((∃ sch, derive_table s fields = Except.ok sch) ↔
      ((fields.map Field.name).count "id" = 1 ∧
        ∀ f ∈ fields, f.name = "id" → idTypeOk f.ty = true)) ∧
    ("id" ∉ fields.map Field.name →
      derive_table s fields =
        Except.error "Structs annotated with `Table` require a primary key field `id: Option<i64>`.") ∧
    (∀ f ∈ fields, f.name = "id" → idTypeOk f.ty = false →
      derive_table s fields = Except.error "The `id` field must be of type `Option<i64>`") := by
  refine ⟨⟨?_, ?_⟩, ?_, ?_⟩
  · rintro ⟨sch, hsch⟩
    have hgood : ∀ f ∈ fields, f.name = "id" → idTypeOk f.ty = true := by
      intro f hf hid
      by_contra hty
      rcases analyzeLoop_cases fields with ⟨cols, hc⟩ | he
      · exact analyzeLoop_not_ok_of_bad fields f hf hid hty cols hc
      · rw [derive_table, he] at hsch
        exact Except.noConfusion hsch
    refine ⟨?_, hgood⟩
    have hok := analyzeLoop_ok_of_good fields hgood
    rw [derive_table, hok] at hsch
    by_cases hany : fields.any (fun f => f.name == "id") = true
    · exact List.count_eq_one_of_mem hnd ((any_id_iff_mem fields).mp hany)
    · simp [hany] at hsch
  · rintro ⟨hcount, hgood⟩
    have hmem : "id" ∈ fields.map Field.name :=
      List.count_pos_iff.mp (by rw [hcount]; exact Nat.one_pos)
    have hok := analyzeLoop_ok_of_good fields hgood
    refine ⟨{ tableName := s, columns := columnNames fields }, ?_⟩
    rw [derive_table, hok]
    simp [(any_id_iff_mem fields).mpr hmem]
  · intro hmem
    have hgood : ∀ f ∈ fields, f.name = "id" → idTypeOk f.ty = true := by
      intro f hf hid
      exact absurd (List.mem_map.mpr ⟨f, hf, hid⟩) hmem
    have hok := analyzeLoop_ok_of_good fields hgood
    have hany : fields.any (fun f => f.name == "id") = false := by
      by_contra h
      exact hmem ((any_id_iff_mem fields).mp (by simpa using h))
    rw [derive_table, hok, hany]
    simp
  · intro f hf hid hty
    rcases analyzeLoop_cases fields with ⟨cols, hc⟩ | he
    · exact absurd hc (analyzeLoop_not_ok_of_bad fields f hf hid (by simp [hty]) cols)
    · rw [derive_table, he]

/-- C9 (witness): a struct whose only field is `id: i64` is rejected with
the mistyped-primary-key diagnostic. -/
theorem C9_schema_validation_witness :
    derive_table "Bad" [⟨"id", RustType.path "i64" ""⟩] =
      Except.error "The `id` field must be of type `Option<i64>`" :=
  (C9_schema_validation "Bad" [⟨"id", RustType.path "i64" ""⟩] (by decide)).2.2
    ⟨"id", RustType.path "i64" ""⟩ (List.mem_cons_self _ _) rfl (by decide)

/-- C10: the insert statement names its columns `(id, c1, ..., cn)` while
binding the field values in declaration order, and the update statement
matches the key through `?1`, the slot of the first bound parameter, which
is always the first declared field; hence every bound value goes to the
column the statement names it for exactly when `id` is the first declared
field. -/
theorem C10_binding_alignment (fields : List Field)
    (hid : "id" ∈ fieldNames fields) (hnd : (fieldNames fields).Nodup) :
    (insertColumnList fields = boundParamFields fields ↔
      (fieldNames fields).head? = some "id") ∧
    updateWhereField fields = (fieldNames fields).head? := by
  refine ⟨⟨?_, ?_⟩, rfl⟩
  · intro h
    rw [show fieldNames fields = boundParamFields fields from rfl, ← h]
    rfl
  · intro h
    cases fields with
    | nil => exact Option.noConfusion h
    | cons f rest =>
        have hf : f.name = "id" := by
          simpa [fieldNames] using h
        have hrest : ∀ g ∈ rest, g.name ≠ "id" := by
          intro g hg he
          have : "id" ∈ rest.map Field.name := List.mem_map.mpr ⟨g, hg, he⟩
          have hnd2 := hnd
          rw [fieldNames, List.map_cons, hf] at hnd2
          exact (List.nodup_cons.mp hnd2).1 this
        have hfilter : rest.filter (fun g => g.name != "id") = rest :=
          List.filter_eq_self.mpr (fun g hg => by simpa using hrest g hg)
        show ("id" :: columnNames (f :: rest)) = (f :: rest).map Field.name
        rw [columnNames, List.filter_cons]
        simp [hf, hfilter]

/-- C10 (witness): on the `Person` struct the alignment criterion holds and
`id` is indeed the first declared field. -/
theorem C10_binding_alignment_witness :
    (insertColumnList personFields = boundParamFields personFields ↔
      (fieldNames personFields).head? = some "id") ∧
    updateWhereField personFields = (fieldNames personFields).head? :=
  C10_binding_alignment personFields (by decide) (by decide)

end Squail
